import Mathlib

/-!
Shallow embedding of a size-class segregated slab allocator
(`config.rs`, `arena.rs`, `memory.rs`).

Machine memory is modelled as a map from byte addresses to the word stored
at that address (only the pointer-sized "next" field at block starts is ever
read or written by the allocator).  Raw pointers become `Nat` addresses with
`0` as the null sentinel, matching `core::ptr::null_mut()`.
-/

namespace SlabAlloc

/-- A word-addressed view of memory: address to stored value. -/
abbrev Mem := Nat → Nat

/-- The eight size classes of `config.rs::BlockSize`. -/
inductive BlockSize where
  | Tiny
  | Small
  | Medium
  | Large
  | Huge
  | Giant
  | Colossal
  | Mammoth
deriving DecidableEq, Repr

/-- Discriminant of the Rust enum: `block_size as usize`. -/
def BlockSize.toNat : BlockSize → Nat
  | .Tiny => 8
  | .Small => 16
  | .Medium => 32
  | .Large => 64
  | .Huge => 128
  | .Giant => 256
  | .Colossal => 512
  | .Mammoth => 1024

/-- `BlockSize::categorize` from `config.rs`: the range match on `size`. -/
def BlockSize.categorize (size : Nat) : Option BlockSize :=
  if 1 ≤ size ∧ size ≤ 8 then some .Tiny
  else if 9 ≤ size ∧ size ≤ 16 then some .Small
  else if 17 ≤ size ∧ size ≤ 32 then some .Medium
  else if 33 ≤ size ∧ size ≤ 64 then some .Large
  else if 65 ≤ size ∧ size ≤ 128 then some .Huge
  else if 129 ≤ size ∧ size ≤ 256 then some .Giant
  else if 257 ≤ size ∧ size ≤ 512 then some .Colossal
  else if 513 ≤ size ∧ size ≤ 1024 then some .Mammoth
  else none

/-- The `Arena` struct of `arena.rs` (the raw pointers become `Nat`). -/
structure Arena where
  start : Nat
  capacity : Nat
  block_size : Nat
  free_list : Nat
deriving DecidableEq, Repr

/-- The loop body of `Arena::initialize_free_list`: starting at `current`,
run `n` iterations, each writing into the block at `current` the address of
the following block when it lies strictly below `startAddr + capacity`,
else the null sentinel, then advancing `current` by `block_size`. -/
def initFreeListGo (startAddr capacity block_size : Nat) :
    Nat → Nat → Mem → Mem
  | _, 0, mem => mem
  | current, n + 1, mem =>
    initFreeListGo startAddr capacity block_size (current + block_size) n
      (fun a => if a = current then
          (if current + block_size < startAddr + capacity then
            current + block_size else 0)
        else mem a)

/-- `Arena::initialize_free_list`: thread the free list through the blocks
(`capacity / block_size` loop iterations) and point `free_list` at `start`. -/
def Arena.initialize_free_list (a : Arena) (mem : Mem) : Arena × Mem :=
  ({ a with free_list := a.start },
    initFreeListGo a.start a.capacity a.block_size a.start
      (a.capacity / a.block_size) mem)

/-- `Arena::new`: store the fields with a null `free_list`, then run
`initialize_free_list`. -/
def Arena.new (start capacity block_size : Nat) (mem : Mem) : Arena × Mem :=
  Arena.initialize_free_list
    { start := start, capacity := capacity, block_size := block_size,
      free_list := 0 } mem

/-- `Arena::allocate`: pop the head of the free list, or return null when
the list is empty.  Returns the updated arena and the pointer. -/
def Arena.allocate (a : Arena) (mem : Mem) : Arena × Nat :=
  if a.free_list = 0 then (a, 0)
  else ({ a with free_list := mem a.free_list }, a.free_list)

/-- `Arena::deallocate`: write the current head into the freed block's
next field and make the block the new head. -/
def Arena.deallocate (a : Arena) (mem : Mem) (ptr : Nat) : Arena × Mem :=
  ({ a with free_list := ptr },
    fun x => if x = ptr then a.free_list else mem x)

/-- `core::alloc::Layout`, reduced to the two fields the allocator sees. -/
structure Layout where
  size : Nat
  align : Nat
deriving DecidableEq, Repr

/-- The dispatcher state: the `ARENAS` array (after `initialize`, a list of
eight slots) together with the machine memory. -/
structure SlabState where
  arenas : List (Option Arena)
  mem : Mem

/-- `SlabMemory::allocate` from `memory.rs`.  `none` models a Rust panic
(the bounds-checked index `arenas[index]` being out of range); `some (p, st)`
models a normal return of pointer `p` (0 for null) with the new state. -/
def SlabMemory.allocate (layout : Layout) (st : SlabState) :
    Option (Nat × SlabState) :=
  match BlockSize.categorize layout.size with
  | some block_size =>
    let index := block_size.toNat / 8 - 1
    if h : index < st.arenas.length then
      match st.arenas.get ⟨index, h⟩ with
      | some arena =>
        let r := arena.allocate st.mem
        some (r.2, { st with arenas := st.arenas.set index (some r.1) })
      | none => some (0, st)
    else none
  | none => some (0, st)

/-- `SlabMemory::deallocate` from `memory.rs`.  `none` models the same
out-of-bounds panic; `some st` a normal return. -/
def SlabMemory.deallocate (ptr : Nat) (layout : Layout) (st : SlabState) :
    Option SlabState :=
  match BlockSize.categorize layout.size with
  | some block_size =>
    let index := block_size.toNat / 8 - 1
    if h : index < st.arenas.length then
      match st.arenas.get ⟨index, h⟩ with
      | some arena =>
        let r := arena.deallocate st.mem ptr
        some { arenas := st.arenas.set index (some r.1), mem := r.2 }
      | none => some st
    else none
  | none => some st

/-- The loop of `SlabMemory::initialize`: at slot `i` build
`Arena::new(current, block_count, 1 << (3 + i))` and advance `current` by
`block_count * block_size` bytes. -/
def initArenasGo (block_count : Nat) :
    Nat → Nat → Nat → Mem → List (Option Arena) × Mem
  | _, _, 0, mem => ([], mem)
  | current, i, n + 1, mem =>
    let block_size := 2 ^ (3 + i)
    let r := Arena.new current block_count block_size mem
    let rest := initArenasGo block_count (current + block_count * block_size)
      (i + 1) n r.2
    (some r.1 :: rest.1, rest.2)

/-- `SlabMemory::initialize`: `block_count = heap_size / 8`, then the loop
over the eight slots. -/
def SlabMemory.initializeHeap (heap_start heap_size : Nat) (mem : Mem) :
    SlabState :=
  let block_count := heap_size / 8
  let r := initArenasGo block_count heap_start 0 8 mem
  { arenas := r.1, mem := r.2 }

/-- All-zero initial memory used for concrete evaluations. -/
def zeroMem : Mem := fun _ => 0

/-- A concrete post-`initialize` state: `initialize(0x400, 64)` over zeroed
memory (`S = 8`, so arena 0 holds one 8-byte block and arenas 1..7 hold no
full block). -/
def demoState : SlabState := SlabMemory.initializeHeap 1024 64 zeroMem

/-- Follow the free list from a pointer for at most `fuel` steps, collecting
the visited block addresses; stops at the null sentinel. -/
def freeChain (mem : Mem) : Nat → Nat → List Nat
  | 0, _ => []
  | fuel + 1, p => if p = 0 then [] else p :: freeChain mem fuel (mem p)

/-- Run `n` consecutive `SlabMemory::allocate` calls with the same layout,
collecting the returned pointers; `none` if any call panics. -/
def allocSeq : Nat → Layout → SlabState → Option (List Nat × SlabState)
  | 0, _, st => some ([], st)
  | n + 1, l, st =>
    (SlabMemory.allocate l st).bind fun r =>
      (allocSeq n l r.2).map fun rest => (r.1 :: rest.1, rest.2)

/-- Modelled from the spec (§4.3), for comparison with the code's
`SlabMemory::initialize`: the prescribed start of sub-region `i`,
`base + Σ_{j<i} N_j * width_j` with `S = length / 8`, `N_j = S / width_j`,
`width_j = 2^(3+j)`. -/
def specSubregionStart (base length i : Nat) : Nat :=
  base + (List.range i).foldl
    (fun acc j => acc + (length / 8 / 2 ^ (3 + j)) * 2 ^ (3 + j)) 0

end SlabAlloc

namespace SlabAlloc

/-! ### Helper lemmas -/

lemma categorize_none_of (s : Nat) (h : s = 0 ∨ 1024 < s) :
    BlockSize.categorize s = none := by
  unfold BlockSize.categorize
  split_ifs <;> first | rfl | omega

/-! ### Claim theorems -/

/-- C1 (code_bug evidence): the dispatcher does not route a request to the
arena whose index is the rank of its size class.  Size 17 classifies to
Medium (rank 2), yet the code computes index `32 / 8 - 1 = 3` and serves the
request from the Large arena: on `demoState` the returned pointer is 1472,
the start of arena slot 3 (width 64), not of arena slot 2 (start 1216). -/
theorem allocate_routes_by_rank_refuted :
    BlockSize.categorize 17 = some BlockSize.Medium ∧
    (SlabMemory.allocate ⟨17, 1⟩ demoState).map Prod.fst = some 1472 ∧
    demoState.arenas[3]? = some (some ⟨1472, 8, 64, 1472⟩) ∧
    demoState.arenas[2]? = some (some ⟨1216, 8, 32, 1216⟩) ∧
    (1472 : Nat) ≠ 1216 :=
  ⟨rfl, rfl, rfl, rfl, by decide⟩

/-- C2 (code_bug evidence): `SlabMemory::allocate` faults on an in-range
size.  Size 128 classifies to Huge, the code computes index
`128 / 8 - 1 = 15`, and `arenas[15]` on the 8-slot array is an
out-of-bounds panic (modelled by `none`). -/
theorem allocate_total_refuted :
    demoState.arenas.length = 8 ∧
    BlockSize.categorize 128 = some BlockSize.Huge ∧
    BlockSize.toNat BlockSize.Huge / 8 - 1 = 15 ∧
    SlabMemory.allocate ⟨128, 8⟩ demoState = none :=
  ⟨rfl, rfl, rfl, rfl⟩

/-- C3 (code_bug evidence): `initialize(1024, 8192)` builds arena 1 at
address 9216 with capacity `S = 1024` bytes, while the spec's partition
places sub-region 1 at `base + N_0 * 8 = 2048`; the code's sub-region even
starts at `base + length`, outside the registered region. -/
theorem initialize_partition_refuted :
    (SlabMemory.initializeHeap 1024 8192 zeroMem).arenas[1]? =
      some (some ⟨9216, 1024, 16, 9216⟩) ∧
    specSubregionStart 1024 8192 1 = 2048 ∧
    (9216 : Nat) ≠ 2048 ∧
    1024 + 8192 ≤ 9216 :=
  ⟨rfl, rfl, by decide, by decide⟩

/-- C4 (code_bug evidence): after `initialize(1024, 72)` the Tiny class
holds `N_0 = (72/8)/8 = 1` full block, yet two consecutive Tiny allocations
both succeed — the free-list initialization links the 8-byte tail fragment
at 1032 (the arena got capacity `S = 9`, not a multiple of 8) — so no call
returns the null sentinel even though `N = 2 > N_0`. -/
theorem allocation_count_refuted :
    72 / 8 / 8 = 1 ∧
    (allocSeq 2 ⟨8, 1⟩ (SlabMemory.initializeHeap 1024 72 zeroMem)).map Prod.fst =
      some [1024, 1032] ∧
    (1024 : Nat) ≠ 0 ∧ (1032 : Nat) ≠ 0 :=
  ⟨rfl, rfl, by decide, by decide⟩

/-- C5 (counterexample): an over-aligned request is not refused.  Size 8
classifies to Tiny (width 8) and the requested alignment 16 exceeds the
width, yet `allocate` returns the non-null block 1024. -/
theorem overaligned_refusal_refuted :
    BlockSize.categorize 8 = some BlockSize.Tiny ∧
    BlockSize.toNat BlockSize.Tiny < 16 ∧
    (SlabMemory.allocate ⟨8, 16⟩ demoState).map Prod.fst = some 1024 ∧
    (1024 : Nat) ≠ 0 :=
  ⟨rfl, by decide, rfl, by decide⟩

/-- C5 (amended): `SlabMemory::allocate` ignores the layout's alignment
entirely — its result is a function of the size alone, so an over-aligned
request behaves exactly like the same-size request with any alignment. -/
theorem allocate_ignores_align (size a1 a2 : Nat) (st : SlabState) :
    SlabMemory.allocate ⟨size, a1⟩ st = SlabMemory.allocate ⟨size, a2⟩ st :=
  rfl

/-- C8: deallocating a non-null block `p` and immediately allocating
returns exactly `p` (LIFO reuse), restores the arena (in particular its
`free_list` head) to its pre-pair value, and leaves memory outside `p`
untouched. -/
theorem dealloc_then_alloc_lifo (a : Arena) (mem : Mem) (p x : Nat)
    (hp : p ≠ 0) :
    (Arena.allocate (Arena.deallocate a mem p).1
      (Arena.deallocate a mem p).2).2 = p ∧
    (Arena.allocate (Arena.deallocate a mem p).1
      (Arena.deallocate a mem p).2).1 = a ∧
    (x ≠ p → (Arena.deallocate a mem p).2 x = mem x) := by
  obtain ⟨s, c, b, f⟩ := a
  refine ⟨?_, ?_, ?_⟩
  · simp [Arena.allocate, Arena.deallocate, hp]
  · simp [Arena.allocate, Arena.deallocate, hp]
  · intro hx
    simp [Arena.deallocate, hx]

/-- Witness for C8 at a concrete arena, pointer 8 and probe address 3. -/
theorem dealloc_then_alloc_lifo_witness :
    (8 : Nat) ≠ 0 ∧
    (Arena.allocate (Arena.deallocate ⟨1024, 32, 8, 0⟩ zeroMem 8).1
      (Arena.deallocate ⟨1024, 32, 8, 0⟩ zeroMem 8).2).2 = 8 ∧
    (Arena.allocate (Arena.deallocate ⟨1024, 32, 8, 0⟩ zeroMem 8).1
      (Arena.deallocate ⟨1024, 32, 8, 0⟩ zeroMem 8).2).1 = ⟨1024, 32, 8, 0⟩ ∧
    (Arena.deallocate ⟨1024, 32, 8, 0⟩ zeroMem 8).2 3 = zeroMem 3 := by
  have h := dealloc_then_alloc_lifo ⟨1024, 32, 8, 0⟩ zeroMem 8 3 (by decide)
  exact ⟨by decide, h.1, h.2.1, h.2.2 (by decide)⟩

/-- C9: when the layout's size yields no size class (size 0 or above 1024),
`SlabMemory::deallocate` is a silent no-op: it returns normally with the
state — every arena slot and all of memory — unchanged. -/
theorem deallocate_no_class_noop (ptr : Nat) (layout : Layout)
    (st : SlabState) (h : layout.size = 0 ∨ 1024 < layout.size) :
    SlabMemory.deallocate ptr layout st = some st := by
  unfold SlabMemory.deallocate
  rw [categorize_none_of layout.size h]

/-- Witness for C9: deallocating pointer 7 with a size-0 layout on a
concrete state returns that state unchanged. -/
theorem deallocate_no_class_noop_witness :
    SlabMemory.deallocate 7 ⟨0, 1⟩ ⟨[], zeroMem⟩ = some ⟨[], zeroMem⟩ :=
  deallocate_no_class_noop 7 ⟨0, 1⟩ ⟨[], zeroMem⟩ (Or.inl rfl)

/-- C10: when the capacity is smaller than the block size (zero full
blocks), `Arena::new` still points `free_list` at `start` instead of the
empty sentinel, so the first `allocate` on this empty arena returns `start`
— a non-null pointer whenever `start` is a real (non-zero) address. -/
theorem arena_new_zero_blocks_head (start capacity block_size : Nat)
    (mem : Mem) (hcap : capacity < block_size) :
    (Arena.new start capacity block_size mem).1.free_list = start ∧
    (Arena.allocate (Arena.new start capacity block_size mem).1
      (Arena.new start capacity block_size mem).2).2 = start ∧
    (0 < start →
      (Arena.allocate (Arena.new start capacity block_size mem).1
        (Arena.new start capacity block_size mem).2).2 ≠ 0) := by
  have key : (Arena.allocate (Arena.new start capacity block_size mem).1
      (Arena.new start capacity block_size mem).2).2 = start := by
    by_cases hs : start = 0 <;>
      simp [Arena.allocate, Arena.new, Arena.initialize_free_list, hs]
  exact ⟨rfl, key, fun hpos => by rw [key]; omega⟩

/-- Witness for C10: an arena over 4 bytes with 8-byte blocks at address
4096 has `free_list = 4096` and its first allocation returns 4096. -/
theorem arena_new_zero_blocks_head_witness :
    (4 : Nat) < 8 ∧
    (Arena.new 4096 4 8 zeroMem).1.free_list = 4096 ∧
    (Arena.allocate (Arena.new 4096 4 8 zeroMem).1
      (Arena.new 4096 4 8 zeroMem).2).2 = 4096 ∧
    (Arena.allocate (Arena.new 4096 4 8 zeroMem).1
      (Arena.new 4096 4 8 zeroMem).2).2 ≠ 0 := by
  have h := arena_new_zero_blocks_head 4096 4 8 zeroMem (by decide)
  exact ⟨by decide, h.1, h.2.1, h.2.2 (by decide)⟩

end SlabAlloc

namespace SlabAlloc

/-! ### Free-list initialization lemmas -/

lemma freeChain_succ (mem : Mem) (fuel p : Nat) :
    freeChain mem (fuel + 1) p =
      if p = 0 then [] else p :: freeChain mem fuel (mem p) := rfl

lemma initFreeListGo_miss (s c b : Nat) (n : Nat) :
    ∀ (current : Nat) (mem : Mem) (x : Nat),
      (∀ t, t < n → x ≠ current + t * b) →
      initFreeListGo s c b current n mem x = mem x := by
  induction n with
  | zero => intro current mem x _; rfl
  | succ n ih =>
    intro current mem x hx
    have hstep : initFreeListGo s c b current (n + 1) mem x =
        initFreeListGo s c b (current + b) n
          (fun a => if a = current then
            (if current + b < s + c then current + b else 0) else mem a) x :=
      rfl
    have hmiss : ∀ t, t < n → x ≠ current + b + t * b := by
      intro t ht
      have h1 := hx (t + 1) (by omega)
      rw [Nat.succ_mul] at h1
      generalize t * b = m at h1 ⊢
      omega
    have h0 : x ≠ current := by simpa using hx 0 n.succ_pos
    rw [hstep, ih (current + b) _ x hmiss]
    simp [h0]

lemma initFreeListGo_hit (s c b : Nat) (hb : 0 < b) (n : Nat) :
    ∀ (current : Nat) (mem : Mem) (t : Nat), t < n →
      initFreeListGo s c b current n mem (current + t * b) =
        (if current + t * b + b < s + c then current + t * b + b else 0) := by
  induction n with
  | zero => intro current mem t ht; omega
  | succ n ih =>
    intro current mem t ht
    have hstep : ∀ y, initFreeListGo s c b current (n + 1) mem y =
        initFreeListGo s c b (current + b) n
          (fun a => if a = current then
            (if current + b < s + c then current + b else 0) else mem a) y :=
      fun _ => rfl
    rw [hstep]
    cases t with
    | zero =>
      have hmiss : ∀ u, u < n → current + 0 * b ≠ current + b + u * b := by
        intro u hu
        simp only [Nat.zero_mul, Nat.add_zero]
        generalize u * b = m
        omega
      rw [initFreeListGo_miss s c b n (current + b) _ _ hmiss]
      simp
    | succ t =>
      have hx : current + (t + 1) * b = current + b + t * b := by ring
      rw [hx]
      exact ih (current + b) _ t (by omega)

lemma arena_new_link (start cap b : Nat) (mem : Mem) (hb : 0 < b)
    (hdiv : cap % b = 0) (i : Nat) (hi : i < cap / b) :
    (Arena.new start cap b mem).2 (start + i * b) =
      if i + 1 < cap / b then start + (i + 1) * b else 0 := by
  have hstep : (Arena.new start cap b mem).2 =
      initFreeListGo start cap b start (cap / b) mem := rfl
  rw [hstep, initFreeListGo_hit start cap b hb (cap / b) start mem i hi]
  have hdvd : b ∣ cap := Nat.dvd_of_mod_eq_zero hdiv
  have hiff : start + i * b + b < start + cap ↔ i + 1 < cap / b := by
    rw [Nat.lt_div_iff_mul_lt hdvd]
    have h1 : b * (i + 1) = i * b + b := by ring
    rw [h1]
    generalize i * b = m
    omega
  by_cases hlt : i + 1 < cap / b
  · rw [if_pos (hiff.mpr hlt), if_pos hlt]
    ring
  · rw [if_neg (fun hcon => hlt (hiff.mp hcon)), if_neg hlt]

lemma chain_cons_range (start b j n : Nat) :
    (start + j * b) :: (List.range n).map (fun t => start + (j + 1 + t) * b) =
      (List.range (n + 1)).map (fun t => start + (j + t) * b) := by
  rw [List.range_succ_eq_map, List.map_cons, List.map_map]
  rw [List.cons.injEq]
  refine ⟨by simp, List.map_congr_left ?_⟩
  intro t ht
  simp only [Function.comp_apply, Nat.succ_eq_add_one]
  have h1 : j + 1 + t = j + (t + 1) := by omega
  rw [h1]

lemma freeChain_arena_new (start cap b : Nat) (mem : Mem) (hb : 0 < b)
    (hdiv : cap % b = 0) (hstart : 0 < start) (k : Nat) :
    ∀ j, j + (k + 1) = cap / b →
      freeChain (Arena.new start cap b mem).2 (k + 1 + 1) (start + j * b) =
        (List.range (k + 1)).map (fun t => start + (j + t) * b) := by
  induction k with
  | zero =>
    intro j hj
    have hp : start + j * b ≠ 0 := by
      generalize j * b = m
      omega
    have hlink := arena_new_link start cap b mem hb hdiv j (by omega)
    rw [freeChain_succ, if_neg hp, hlink, if_neg (by omega)]
    have h0 : List.range 1 = [0] := rfl
    rw [h0]
    simp [freeChain_succ]
  | succ k ih =>
    intro j hj
    have hp : start + j * b ≠ 0 := by
      generalize j * b = m
      omega
    have hlink := arena_new_link start cap b mem hb hdiv j (by omega)
    rw [freeChain_succ, if_neg hp, hlink, if_pos (by omega),
      ih (j + 1) (by omega)]
    exact chain_cons_range start b j (k + 1)

/-- C6 (counterexample): the claimed "equivalently `s > w/2` for `s > 1`"
characterization fails below the smallest class width: size 2 classifies to
Tiny (width 8) although `2 ≤ 8 / 2`. -/
theorem categorize_halfwidth_refuted :
    BlockSize.categorize 2 = some BlockSize.Tiny ∧ (1 : Nat) < 2 ∧
    ¬(BlockSize.toNat BlockSize.Tiny / 2 < 2) :=
  ⟨rfl, by decide, by decide⟩

/-- C6 (amended): `categorize` returns a class exactly for `1 ≤ s ≤ 1024`
(`none` iff `s = 0` or `s > 1024`), the returned class is the smallest of
the eight widths that is `≥ s` — with `s > w/2` holding whenever the width
exceeds the smallest class width 8 — and the boundary sizes 8, 9 and 1024
map to Tiny, Small and Mammoth. -/
theorem categorize_spec (s : Nat) (c cc : BlockSize) :
    ((BlockSize.categorize s).isSome ↔ 1 ≤ s ∧ s ≤ 1024) ∧
    (BlockSize.categorize s = some c →
      s ≤ c.toNat ∧ (8 < c.toNat → c.toNat / 2 < s) ∧
      (s ≤ cc.toNat → c.toNat ≤ cc.toNat)) ∧
    BlockSize.categorize 8 = some BlockSize.Tiny ∧
    BlockSize.categorize 9 = some BlockSize.Small ∧
    BlockSize.categorize 1024 = some BlockSize.Mammoth := by
  refine ⟨?_, ?_, rfl, rfl, rfl⟩
  · unfold BlockSize.categorize
    split_ifs <;> simp <;> omega
  · intro h
    unfold BlockSize.categorize at h
    split_ifs at h <;>
      first
        | (simp only [Option.some.injEq] at h; subst h;
           cases cc <;> simp only [BlockSize.toNat] <;> omega)
        | simp at h

/-- Witness for C6 at size 10, class Small, comparison class Medium. -/
theorem categorize_spec_witness :
    BlockSize.categorize 10 = some BlockSize.Small ∧
    10 ≤ BlockSize.toNat BlockSize.Small ∧
    BlockSize.toNat BlockSize.Small / 2 < 10 ∧
    BlockSize.toNat BlockSize.Small ≤ BlockSize.toNat BlockSize.Medium ∧
    ((BlockSize.categorize 10).isSome ↔ 1 ≤ 10 ∧ 10 ≤ 1024) := by
  have h := categorize_spec 10 BlockSize.Small BlockSize.Medium
  exact ⟨rfl, (h.2.1 rfl).1, (h.2.1 rfl).2.1 (by decide),
    (h.2.1 rfl).2.2 (by decide), h.1⟩

/-- C7: under the construction preconditions (block size at least a
pointer, a power of two, aligned base, capacity an exact multiple of the
block size) and for a non-null base and at least one block, `Arena::new`
points `free_list` at block 0 (`start`) and threads the free list through
exactly `N = capacity / block_size` blocks in ascending address order,
ending in the null sentinel. -/
theorem arena_new_builds_free_list (start capacity block_size : Nat)
    (mem : Mem) (hbs : 8 ≤ block_size) (hpow : ∃ k, block_size = 2 ^ k)
    (halign : start % block_size = 0) (hdiv : capacity % block_size = 0)
    (hstart : 0 < start) (hcap : 0 < capacity) :
    (Arena.new start capacity block_size mem).1.free_list = start ∧
    freeChain (Arena.new start capacity block_size mem).2
        (capacity / block_size + 1) start =
      (List.range (capacity / block_size)).map
        (fun i => start + i * block_size) := by
  have hbpos : 0 < block_size := by omega
  have hN : 0 < capacity / block_size :=
    Nat.div_pos (Nat.le_of_dvd hcap (Nat.dvd_of_mod_eq_zero hdiv)) hbpos
  obtain ⟨N, hNeq⟩ : ∃ N, capacity / block_size = N + 1 :=
    ⟨capacity / block_size - 1, by omega⟩
  refine ⟨rfl, ?_⟩
  rw [hNeq]
  have h := freeChain_arena_new start capacity block_size mem hbpos hdiv
    hstart N 0 (by omega)
  simpa using h

/-- Witness for C7: `Arena::new(1024, 32, 8)` yields the four-block chain
1024 → 1032 → 1040 → 1048 → null. -/
theorem arena_new_builds_free_list_witness :
    (8 : Nat) ≤ 8 ∧ (8 : Nat) = 2 ^ 3 ∧ (1024 : Nat) % 8 = 0 ∧
    (32 : Nat) % 8 = 0 ∧ (0 : Nat) < 1024 ∧ (0 : Nat) < 32 ∧
    (Arena.new 1024 32 8 zeroMem).1.free_list = 1024 ∧
    freeChain (Arena.new 1024 32 8 zeroMem).2 (32 / 8 + 1) 1024 =
      (List.range (32 / 8)).map (fun i => 1024 + i * 8) := by
  have h := arena_new_builds_free_list 1024 32 8 zeroMem (by decide)
    ⟨3, by decide⟩ (by decide) (by decide) (by decide) (by decide)
  exact ⟨by decide, by decide, by decide, by decide, by decide, by decide,
    h.1, h.2⟩

end SlabAlloc
